import Mathlib

/-!
Shallow embedding of the FemtoClaw protocol validation library
(src/message.rs, src/validation.rs) and proofs of its specification
properties.

JSON values (serde_json::Value) are modelled as an inductive tree; JSON
objects are association lists of string keys to values (member order is
the iteration order of the map; keys are unique per object, per the
external parser contract).  Fallible Rust code returns `Except`; the
panicking `Map` index operation is modelled with an outer `Option`
(`none` = panic), so totality of `validate` is the statement that it
never returns `none`.
-/

/-- serde_json::Value: an untyped JSON tree. -/
inductive Json where
  | null
  | bool (b : Bool)
  | num (n : Int)
  | str (s : String)
  | arr (elems : List Json)
  | obj (fields : List (String × Json))
  deriving Repr

/-- A JSON object body: `serde_json::Map<String, Value>` as an
association list in iteration order. -/
abbrev JObj := List (String × Json)

/-- `Map::get` — first matching key, `none` when absent. -/
def objGet : JObj → String → Option Json
  | [], _ => none
  | (k, v) :: rest, key => if k = key then some v else objGet rest key

/-- `Map::contains_key`. -/
def objContains (o : JObj) (key : String) : Bool :=
  (objGet o key).isSome

/-- `Value::as_str`. -/
def Json.as_str : Json → Option String
  | .str s => some s
  | _ => none

/-- `Value::as_object`. -/
def Json.asObject : Json → Option JObj
  | .obj fields => some fields
  | _ => none

/-- `Value::is_object`. -/
def Json.is_object (v : Json) : Bool :=
  v.asObject.isSome

/-- `Value` square-bracket indexing by string key: yields `Null` when the
value is not an object or the key is absent (never panics). -/
def Json.index (v : Json) (key : String) : Json :=
  match v.asObject with
  | some fields => (objGet fields key).getD .null
  | none => .null

/-- message.rs: `MessageContent`. -/
structure MessageContent where
  content : String
  deriving Repr, DecidableEq

/-- message.rs: `MessageForm`. -/
structure MessageForm where
  message : MessageContent
  deriving Repr, DecidableEq

/-- message.rs: `ToolCallForm`. -/
structure ToolCallForm where
  tool : String
  args : Json
  deriving Repr

/-- message.rs: `ToolCallWrapper`. -/
structure ToolCallWrapper where
  tool_call : ToolCallForm
  deriving Repr

/-- message.rs: `ProtocolOutput`, the closed sum of the two protocol forms. -/
inductive ProtocolOutput where
  | Message (m : MessageForm)
  | ToolCall (tc : ToolCallWrapper)
  deriving Repr

/-- validation.rs: `ValidationError` (each variant carries its message /
field-path string exactly as the code formats it). -/
inductive ValidationError where
  | InvalidJson (msg : String)
  | ProtocolViolation (msg : String)
  | MissingField (path : String)
  | InvalidFieldType (msg : String)
  | UnknownField (msg : String)
  deriving Repr, DecidableEq

/-- validation.rs: `Validator` — stateless configuration holding the
closed set of recognized top-level field names. -/
structure Validator where
  known_fields : List String

/-- `Validator::new`. -/
def Validator.new : Validator :=
  ⟨["message", "tool_call"]⟩

/-- The `for key in obj.keys()` loop of `Validator::validate`: the first
key, in iteration order, outside the recognized set. -/
def firstUnknownKey (known : List String) : JObj → Option String
  | [] => none
  | (k, _) :: rest =>
    if known.contains k then firstUnknownKey known rest else some k

/-- `Validator::validate_message_form`.  The `message_obj["content"]`
`Map` index is guarded by the `contains_key` check just above it; its
panic branch is the `none` result. -/
def Validator.validate_message_form (_self : Validator) (obj : JObj) :
    Option (Except ValidationError Unit) :=
  match objGet obj "message" with
  | none => some (.error (.MissingField "message"))
  | some message =>
    match message.asObject with
    | none => some (.error (.ProtocolViolation "message must be an object"))
    | some message_obj =>
      if !objContains message_obj "content" then
        some (.error (.MissingField "message.content"))
      else
        match objGet message_obj "content" with
        | none => none
        | some cval =>
          match cval.as_str with
          | none =>
            some (.error (.InvalidFieldType "message.content must be a string"))
          | some content =>
            if content.isEmpty then
              some (.error (.ProtocolViolation "message.content must not be empty"))
            else
              some (.ok ())

/-- `Validator::validate_tool_call_form`.  The `tc_obj["tool"]` and
`tc_obj["args"]` `Map` indexes are guarded by `contains_key` checks;
their panic branches are the `none` results. -/
def Validator.validate_tool_call_form (_self : Validator) (obj : JObj) :
    Option (Except ValidationError Unit) :=
  match objGet obj "tool_call" with
  | none => some (.error (.MissingField "tool_call"))
  | some tool_call =>
    match tool_call.asObject with
    | none => some (.error (.ProtocolViolation "tool_call must be an object"))
    | some tc_obj =>
      if !objContains tc_obj "tool" then
        some (.error (.MissingField "tool_call.tool"))
      else
        match objGet tc_obj "tool" with
        | none => none
        | some tval =>
          match tval.as_str with
          | none =>
            some (.error (.InvalidFieldType "tool_call.tool must be a string"))
          | some tool =>
            if tool.isEmpty then
              some (.error (.ProtocolViolation "tool_call.tool must not be empty"))
            else if !objContains tc_obj "args" then
              some (.error (.MissingField "tool_call.args"))
            else
              match objGet tc_obj "args" with
              | none => none
              | some aval =>
                if !aval.is_object then
                  some (.error (.InvalidFieldType "tool_call.args must be an object"))
                else
                  some (.ok ())

/-- The exclusivity-violation message for both keys present. -/
def exclBothMsg : String :=
  "protocol messages must contain exactly one of message or tool_call, not both"

/-- The exclusivity-violation message for neither key present. -/
def exclNeitherMsg : String :=
  "protocol messages must contain either message or tool_call"

/-- The `UnknownField` message the code formats around the offending key. -/
def unknownFieldMsg (key : String) : String :=
  "unknown field " ++ key ++
    " - protocol messages must only contain message or tool_call"

/-- `Validator::validate`: generic JSON value to typed protocol value or
classified error.  The `obj["message"]` / `obj["tool_call"]` `Map`
indexes in the success path are guarded by the preceding presence
checks; their panic branches are the `none` results. -/
def Validator.validate (self : Validator) (value : Json) :
    Option (Except ValidationError ProtocolOutput) :=
  match value.asObject with
  | none => some (.error (.ProtocolViolation "must be a JSON object"))
  | some obj =>
    let has_message := objContains obj "message"
    let has_tool_call := objContains obj "tool_call"
    if has_message && has_tool_call then
      some (.error (.ProtocolViolation exclBothMsg))
    else if !has_message && !has_tool_call then
      some (.error (.ProtocolViolation exclNeitherMsg))
    else
      match firstUnknownKey self.known_fields obj with
      | some key => some (.error (.UnknownField (unknownFieldMsg key)))
      | none =>
        if has_message then
          match self.validate_message_form obj with
          | none => none
          | some (.error e) => some (.error e)
          | some (.ok _) =>
            match objGet obj "message" with
            | none => none
            | some msg =>
              match (msg.index "content").as_str with
              | none =>
                some (.error (.InvalidFieldType "message.content must be a string"))
              | some content =>
                some (.ok (.Message ⟨⟨content⟩⟩))
        else
          match self.validate_tool_call_form obj with
          | none => none
          | some (.error e) => some (.error e)
          | some (.ok _) =>
            match objGet obj "tool_call" with
            | none => none
            | some tc =>
              match (tc.index "tool").as_str with
              | none =>
                some (.error (.InvalidFieldType "tool_call.tool must be a string"))
              | some tool =>
                some (.ok (.ToolCall ⟨⟨tool, tc.index "args"⟩⟩))

/-- The validity rules of spec section 4 for a `ProtocolOutput` value:
non-empty `content`; non-empty `tool` and object-typed `args`. -/
def ProtocolOutput.validByRules : ProtocolOutput → Bool
  | .Message m => !m.message.content.isEmpty
  | .ToolCall tc => !tc.tool_call.tool.isEmpty && tc.tool_call.args.is_object

/-- Serialization of a `ProtocolOutput` back to its canonical wire shape
(the serde `Serialize` derive on the nested structs with the untagged
outer enum). -/
def ProtocolOutput.toWire : ProtocolOutput → Json
  | .Message m => .obj [("message", .obj [("content", .str m.message.content)])]
  | .ToolCall tc =>
      .obj [("tool_call",
        .obj [("tool", .str tc.tool_call.tool), ("args", tc.tool_call.args)])]

/-! ### Helper lemmas -/

theorem objContains_true_iff (o : JObj) (k : String) :
    objContains o k = true ↔ ∃ v, objGet o k = some v := by
  simp [objContains, Option.isSome_iff_exists]

theorem firstUnknownKey_cons (known : List String) (k0 : String) (v0 : Json)
    (rest : JObj) :
    firstUnknownKey known ((k0, v0) :: rest) =
      if known.contains k0 then firstUnknownKey known rest else some k0 := rfl

theorem firstUnknownKey_of_mem (known : List String) (fields : JObj)
    (h : ∃ k, k ∈ fields.map Prod.fst ∧ k ∉ known) :
    ∃ k, firstUnknownKey known fields = some k ∧
      k ∈ fields.map Prod.fst ∧ k ∉ known := by
  induction fields with
  | nil => simp at h
  | cons p rest ih =>
    obtain ⟨k0, v0⟩ := p
    by_cases hk : k0 ∈ known
    · have hc : known.contains k0 = true := by simpa using hk
      obtain ⟨k, hmem, hnot⟩ := h
      simp only [List.map_cons, List.mem_cons] at hmem
      rcases hmem with rfl | hmem
      · exact absurd hk hnot
      · obtain ⟨k1, hfk, hmem1, hnot1⟩ := ih ⟨k, hmem, hnot⟩
        exact ⟨k1, by rw [firstUnknownKey_cons, hc]; simpa using hfk,
          by simp [hmem1], hnot1⟩
    · have hc : known.contains k0 = false := by simpa using hk
      exact ⟨k0, by rw [firstUnknownKey_cons, hc]; simp, by simp, hk⟩

/-- C1: an object with both or with neither of the recognized top-level
keys is always rejected with the corresponding exclusivity
`ProtocolViolation`, before any unknown-field or shape-specific check
can fire — no other hypothesis on the object is needed. -/
theorem C1_exclusivity_precedence (fields : JObj) :
    (objContains fields "message" = true ∧ objContains fields "tool_call" = true →
      Validator.new.validate (.obj fields) =
        some (.error (.ProtocolViolation exclBothMsg)))
    ∧ (objContains fields "message" = false ∧ objContains fields "tool_call" = false →
      Validator.new.validate (.obj fields) =
        some (.error (.ProtocolViolation exclNeitherMsg))) := by
  constructor
  · rintro ⟨h1, h2⟩
    simp [Validator.validate, Json.asObject, h1, h2]
  · rintro ⟨h1, h2⟩
    simp [Validator.validate, Json.asObject, h1, h2]

theorem C1_exclusivity_precedence_witness :
    Validator.new.validate
        (.obj [("message", .null), ("tool_call", .null)]) =
      some (.error (.ProtocolViolation exclBothMsg))
    ∧ Validator.new.validate (.obj [("other", .str "x")]) =
      some (.error (.ProtocolViolation exclNeitherMsg)) :=
  ⟨(C1_exclusivity_precedence _).1 ⟨rfl, rfl⟩,
   (C1_exclusivity_precedence _).2 ⟨rfl, rfl⟩⟩

/-- C2: with exactly one recognized key present and at least one
unrecognized top-level key, `validate` fails with `UnknownField` naming
an unrecognized key, regardless of the nested value (the closed-field
check runs before any shape-specific validation). -/
theorem C2_unknown_field_precedence (fields : JObj)
    (hx : objContains fields "message" ≠ objContains fields "tool_call")
    (hu : ∃ k, k ∈ fields.map Prod.fst ∧ k ∉ ["message", "tool_call"]) :
    ∃ k, k ∈ fields.map Prod.fst ∧ k ∉ ["message", "tool_call"] ∧
      Validator.new.validate (.obj fields) =
        some (.error (.UnknownField (unknownFieldMsg k))) := by
  obtain ⟨k, hfk, hmem, hnot⟩ :=
    firstUnknownKey_of_mem ["message", "tool_call"] fields hu
  refine ⟨k, hmem, hnot, ?_⟩
  cases hm : objContains fields "message" <;>
    cases ht : objContains fields "tool_call" <;>
      first
        | exact absurd (hm.trans ht.symm) hx
        | simp [Validator.validate, Validator.new, Json.asObject, hm, ht, hfk]

theorem C2_unknown_field_precedence_witness :
    ∃ k, k ∈ ([("message", Json.obj [("content", Json.bool true)]),
        ("extra", Json.null)] : JObj).map Prod.fst ∧
      k ∉ ["message", "tool_call"] ∧
      Validator.new.validate
          (.obj [("message", .obj [("content", .bool true)]), ("extra", .null)]) =
        some (.error (.UnknownField (unknownFieldMsg k))) :=
  C2_unknown_field_precedence _ (by decide) ⟨"extra", by simp, by simp⟩

theorem asObject_obj (fields : JObj) :
    (Json.obj fields).asObject = some fields := rfl

theorem empty_string_isEmpty : "".isEmpty = true := rfl

theorem isEmpty_false_of_ne (s : String) (h : s ≠ "") : s.isEmpty = false := by
  cases he : s.isEmpty
  · rfl
  · exact absurd ((String.isEmpty_iff s).1 he) h

theorem message_success (mf : JObj) (s : String)
    (h : objGet mf "content" = some (.str s)) (hne : s.isEmpty = false) :
    Validator.new.validate (.obj [("message", .obj mf)]) =
      some (.ok (.Message ⟨⟨s⟩⟩)) := by
  simp [Validator.validate, Validator.new, Json.asObject, objContains, objGet,
    firstUnknownKey, Validator.validate_message_form, Json.as_str, Json.index,
    h, hne]

theorem tool_success (tf : JObj) (t : String) (a : Json)
    (ht : objGet tf "tool" = some (.str t)) (hne : t.isEmpty = false)
    (ha : objGet tf "args" = some a) (hobj : a.is_object = true) :
    Validator.new.validate (.obj [("tool_call", .obj tf)]) =
      some (.ok (.ToolCall ⟨⟨t, a⟩⟩)) := by
  simp [Validator.validate, Validator.new, Json.asObject, objContains, objGet,
    firstUnknownKey, Validator.validate_tool_call_form, Json.as_str, Json.index,
    ht, hne, ha, hobj]

theorem message_not_object (m : Json) (hm : m.asObject = none) :
    Validator.new.validate (.obj [("message", m)]) =
      some (.error (.ProtocolViolation "message must be an object")) := by
  simp [Validator.validate, Validator.new, asObject_obj, objContains, objGet,
    firstUnknownKey, Validator.validate_message_form, hm]

theorem message_missing_content (mf : JObj) (h : objGet mf "content" = none) :
    Validator.new.validate (.obj [("message", .obj mf)]) =
      some (.error (.MissingField "message.content")) := by
  simp [Validator.validate, Validator.new, Json.asObject, objContains, objGet,
    firstUnknownKey, Validator.validate_message_form, h]

theorem message_content_not_string (mf : JObj) (c : Json)
    (h : objGet mf "content" = some c) (hs : c.as_str = none) :
    Validator.new.validate (.obj [("message", .obj mf)]) =
      some (.error (.InvalidFieldType "message.content must be a string")) := by
  simp [Validator.validate, Validator.new, Json.asObject, objContains, objGet,
    firstUnknownKey, Validator.validate_message_form, h, hs]

theorem message_content_empty (mf : JObj)
    (h : objGet mf "content" = some (.str "")) :
    Validator.new.validate (.obj [("message", .obj mf)]) =
      some (.error (.ProtocolViolation "message.content must not be empty")) := by
  simp [Validator.validate, Validator.new, Json.asObject, objContains, objGet,
    firstUnknownKey, Validator.validate_message_form, Json.as_str, h,
    empty_string_isEmpty]

theorem tool_empty_rejected (tf : JObj)
    (h : objGet tf "tool" = some (.str "")) :
    Validator.new.validate (.obj [("tool_call", .obj tf)]) =
      some (.error (.ProtocolViolation "tool_call.tool must not be empty")) := by
  simp [Validator.validate, Validator.new, Json.asObject, objContains, objGet,
    firstUnknownKey, Validator.validate_tool_call_form, Json.as_str, h,
    empty_string_isEmpty]

theorem tool_args_not_object (tf : JObj) (t : String) (a : Json)
    (ht : objGet tf "tool" = some (.str t)) (hne : t.isEmpty = false)
    (ha : objGet tf "args" = some a) (hno : a.is_object = false) :
    Validator.new.validate (.obj [("tool_call", .obj tf)]) =
      some (.error (.InvalidFieldType "tool_call.args must be an object")) := by
  simp [Validator.validate, Validator.new, Json.asObject, objContains, objGet,
    firstUnknownKey, Validator.validate_tool_call_form, Json.as_str,
    ht, hne, ha, hno]

/-- C3: the full case analysis of the text-message form when "message" is
the only top-level key: a non-empty string content yields exactly
`Message` with that content; a non-object "message" value yields
`ProtocolViolation`; a missing "content" yields
`MissingField "message.content"`; a non-string "content" yields
`InvalidFieldType`; an empty content yields `ProtocolViolation`. -/
theorem C3_message_form_cases :
    (∀ mf s, objGet mf "content" = some (.str s) → s ≠ "" →
      Validator.new.validate (.obj [("message", .obj mf)]) =
        some (.ok (.Message ⟨⟨s⟩⟩)))
    ∧ (∀ m, m.asObject = none →
      Validator.new.validate (.obj [("message", m)]) =
        some (.error (.ProtocolViolation "message must be an object")))
    ∧ (∀ mf, objGet mf "content" = none →
      Validator.new.validate (.obj [("message", .obj mf)]) =
        some (.error (.MissingField "message.content")))
    ∧ (∀ mf c, objGet mf "content" = some c → c.as_str = none →
      Validator.new.validate (.obj [("message", .obj mf)]) =
        some (.error (.InvalidFieldType "message.content must be a string")))
    ∧ (∀ mf, objGet mf "content" = some (.str "") →
      Validator.new.validate (.obj [("message", .obj mf)]) =
        some (.error (.ProtocolViolation "message.content must not be empty"))) :=
  ⟨fun mf s h hne => message_success mf s h (isEmpty_false_of_ne s hne),
   message_not_object, message_missing_content,
   message_content_not_string, message_content_empty⟩

theorem C3_message_form_cases_witness :
    Validator.new.validate
        (.obj [("message", .obj [("content", .str "Hello, world")])]) =
      some (.ok (.Message ⟨⟨"Hello, world"⟩⟩))
    ∧ Validator.new.validate (.obj [("message", .str "x")]) =
      some (.error (.ProtocolViolation "message must be an object"))
    ∧ Validator.new.validate (.obj [("message", .obj [])]) =
      some (.error (.MissingField "message.content"))
    ∧ Validator.new.validate (.obj [("message", .obj [("content", .num 7)])]) =
      some (.error (.InvalidFieldType "message.content must be a string"))
    ∧ Validator.new.validate (.obj [("message", .obj [("content", .str "")])]) =
      some (.error (.ProtocolViolation "message.content must not be empty")) :=
  ⟨C3_message_form_cases.1 _ "Hello, world" rfl (by decide),
   C3_message_form_cases.2.1 (.str "x") rfl,
   C3_message_form_cases.2.2.1 [] rfl,
   C3_message_form_cases.2.2.2.1 _ (.num 7) rfl rfl,
   C3_message_form_cases.2.2.2.2 _ rfl⟩

/-- C4: when "tool_call" is the only top-level key and its value is an
object with a non-empty string "tool" and an object-typed "args", the
result is exactly `ToolCall` with that tool name and the "args" value
carried through verbatim. -/
theorem C4_tool_call_success (tf : JObj) (t : String) (a : Json)
    (ht : objGet tf "tool" = some (.str t)) (hne : t ≠ "")
    (ha : objGet tf "args" = some a) (hobj : a.is_object = true) :
    Validator.new.validate (.obj [("tool_call", .obj tf)]) =
      some (.ok (.ToolCall ⟨⟨t, a⟩⟩)) :=
  tool_success tf t a ht (isEmpty_false_of_ne t hne) ha hobj

theorem C4_tool_call_success_witness :
    Validator.new.validate
        (.obj [("tool_call", .obj [("tool", .str "web.get"),
          ("args", .obj [("url", .str "https://example.com")])])]) =
      some (.ok (.ToolCall
        ⟨⟨"web.get", .obj [("url", .str "https://example.com")]⟩⟩)) :=
  C4_tool_call_success _ "web.get" _ rfl (by decide) rfl rfl

/-- C5: an empty "message"."content" or an empty "tool_call"."tool" is
always rejected with the corresponding empty-value `ProtocolViolation`,
with no further hypothesis on the rest of the nested object. -/
theorem C5_empty_value_rejected :
    (∀ mf, objGet mf "content" = some (.str "") →
      Validator.new.validate (.obj [("message", .obj mf)]) =
        some (.error (.ProtocolViolation "message.content must not be empty")))
    ∧ (∀ tf, objGet tf "tool" = some (.str "") →
      Validator.new.validate (.obj [("tool_call", .obj tf)]) =
        some (.error (.ProtocolViolation "tool_call.tool must not be empty"))) :=
  ⟨message_content_empty, tool_empty_rejected⟩

theorem C5_empty_value_rejected_witness :
    Validator.new.validate (.obj [("message", .obj [("content", .str "")])]) =
      some (.error (.ProtocolViolation "message.content must not be empty"))
    ∧ Validator.new.validate
        (.obj [("tool_call", .obj [("tool", .str ""), ("args", .obj [])])]) =
      some (.error (.ProtocolViolation "tool_call.tool must not be empty")) :=
  ⟨C5_empty_value_rejected.1 _ rfl, C5_empty_value_rejected.2 _ rfl⟩

/-- C6: with a valid non-empty "tool", a present "args" that is not a
JSON object is rejected with `InvalidFieldType`, and an object-typed
"args" (including the empty object) passes validation. -/
theorem C6_args_type_strictness :
    (∀ tf t a, objGet tf "tool" = some (.str t) → t ≠ "" →
      objGet tf "args" = some a → a.is_object = false →
      Validator.new.validate (.obj [("tool_call", .obj tf)]) =
        some (.error (.InvalidFieldType "tool_call.args must be an object")))
    ∧ (∀ tf t a, objGet tf "tool" = some (.str t) → t ≠ "" →
      objGet tf "args" = some a → a.is_object = true →
      ∃ r, Validator.new.validate (.obj [("tool_call", .obj tf)]) =
        some (.ok r)) :=
  ⟨fun tf t a ht hne ha hno =>
      tool_args_not_object tf t a ht (isEmpty_false_of_ne t hne) ha hno,
   fun tf t a ht hne ha hobj =>
      ⟨_, tool_success tf t a ht (isEmpty_false_of_ne t hne) ha hobj⟩⟩

theorem C6_args_type_strictness_witness :
    (Validator.new.validate
        (.obj [("tool_call", .obj [("tool", .str "t"), ("args", .arr [])])]) =
      some (.error (.InvalidFieldType "tool_call.args must be an object")))
    ∧ ∃ r, Validator.new.validate
        (.obj [("tool_call", .obj [("tool", .str "t"), ("args", .obj [])])]) =
      some (.ok r) :=
  ⟨C6_args_type_strictness.1 _ "t" (.arr []) rfl (by decide) rfl rfl,
   C6_args_type_strictness.2 _ "t" (.obj []) rfl (by decide) rfl rfl⟩

/-- C8: unknown keys are rejected only at the top level — both forms
validate successfully for an arbitrary nested object, so any extra keys
inside "message" or "tool_call" beyond the required ones never cause a
failure. -/
theorem C8_nested_extras_never_fail :
    (∀ mf s, objGet mf "content" = some (.str s) → s ≠ "" →
      Validator.new.validate (.obj [("message", .obj mf)]) =
        some (.ok (.Message ⟨⟨s⟩⟩)))
    ∧ (∀ tf t a, objGet tf "tool" = some (.str t) → t ≠ "" →
      objGet tf "args" = some a → a.is_object = true →
      Validator.new.validate (.obj [("tool_call", .obj tf)]) =
        some (.ok (.ToolCall ⟨⟨t, a⟩⟩))) :=
  ⟨fun mf s h hne => message_success mf s h (isEmpty_false_of_ne s hne),
   fun tf t a ht hne ha hobj =>
      tool_success tf t a ht (isEmpty_false_of_ne t hne) ha hobj⟩

theorem C8_nested_extras_never_fail_witness :
    Validator.new.validate
        (.obj [("message", .obj [("content", .str "hi"),
          ("unexpected", .bool true)])]) =
      some (.ok (.Message ⟨⟨"hi"⟩⟩))
    ∧ Validator.new.validate
        (.obj [("tool_call", .obj [("tool", .str "fs.read"),
          ("args", .obj []), ("extra", .null)])]) =
      some (.ok (.ToolCall ⟨⟨"fs.read", .obj []⟩⟩)) :=
  ⟨C8_nested_extras_never_fail.1 _ "hi" rfl (by decide),
   C8_nested_extras_never_fail.2 _ "fs.read" (.obj []) rfl (by decide) rfl rfl⟩

theorem asObject_eq_some (v : Json) (fields : JObj) :
    v.asObject = some fields ↔ v = .obj fields := by
  cases v <;> simp [Json.asObject]

theorem as_str_eq_some (v : Json) (s : String) :
    v.as_str = some s ↔ v = .str s := by
  cases v <;> simp [Json.as_str]

theorem validate_message_form_ok (self : Validator) (obj : JObj)
    (h : self.validate_message_form obj = some (.ok ())) :
    ∃ mo s, objGet obj "message" = some (.obj mo) ∧
      objGet mo "content" = some (.str s) ∧ s.isEmpty = false := by
  unfold Validator.validate_message_form at h
  split at h
  · simp at h
  · rename_i message hmsg
    split at h
    · simp at h
    · rename_i message_obj hobj
      split at h
      · simp at h
      · rename_i hcont
        split at h
        · simp at h
        · rename_i cval hcval
          split at h
          · simp at h
          · rename_i content hstr
            split at h
            · simp at h
            · rename_i hne
              refine ⟨message_obj, content, ?_, ?_, ?_⟩
              · rw [hmsg, (asObject_eq_some message message_obj).1 hobj]
              · rw [hcval, (as_str_eq_some cval content).1 hstr]
              · simpa using hne

theorem validate_tool_call_form_ok (self : Validator) (obj : JObj)
    (h : self.validate_tool_call_form obj = some (.ok ())) :
    ∃ tco t a, objGet obj "tool_call" = some (.obj tco) ∧
      objGet tco "tool" = some (.str t) ∧ t.isEmpty = false ∧
      objGet tco "args" = some a ∧ a.is_object = true := by
  unfold Validator.validate_tool_call_form at h
  split at h
  · simp at h
  · rename_i tool_call htc
    split at h
    · simp at h
    · rename_i tc_obj hobj
      split at h
      · simp at h
      · rename_i hct
        split at h
        · simp at h
        · rename_i tval htval
          split at h
          · simp at h
          · rename_i tool hstr
            split at h
            · simp at h
            · rename_i hne
              split at h
              · simp at h
              · rename_i hca
                split at h
                · simp at h
                · rename_i aval haval
                  split at h
                  · simp at h
                  · rename_i hao
                    refine ⟨tc_obj, tool, aval, ?_, ?_, ?_, ?_, ?_⟩
                    · rw [htc, (asObject_eq_some tool_call tc_obj).1 hobj]
                    · rw [htval, (as_str_eq_some tval tool).1 hstr]
                    · simpa using hne
                    · exact haval
                    · simpa using hao

theorem index_obj_get (fields : JObj) (k : String) (v : Json)
    (h : objGet fields k = some v) : (Json.obj fields).index k = v := by
  simp [Json.index, asObject_obj, h]

theorem validate_ok_valid (value : Json) (r : ProtocolOutput)
    (h : Validator.new.validate value = some (.ok r)) :
    r.validByRules = true := by
  rcases hv : value.asObject with _ | obj
  · simp [Validator.validate, hv] at h
  · cases hm : objContains obj "message" <;>
      cases htl : objContains obj "tool_call"
    · simp [Validator.validate, hv, hm, htl] at h
    · rcases hu : firstUnknownKey Validator.new.known_fields obj with _ | key
      · rcases hform : Validator.new.validate_tool_call_form obj with _ | ef
        · simp [Validator.validate, hv, hm, htl, hu, hform] at h
        · rcases ef with e | u
          · simp [Validator.validate, hv, hm, htl, hu, hform] at h
          · cases u
            obtain ⟨tco, t, a, h1, h2, h3, h4, h5⟩ :=
              validate_tool_call_form_ok Validator.new obj hform
            simp [Validator.validate, hv, hm, htl, hu, hform, h1,
              index_obj_get tco "tool" (.str t) h2,
              index_obj_get tco "args" a h4, Json.as_str] at h
            subst h
            simp [ProtocolOutput.validByRules, h3, h5]
      · simp [Validator.validate, hv, hm, htl, hu] at h
    · rcases hu : firstUnknownKey Validator.new.known_fields obj with _ | key
      · rcases hform : Validator.new.validate_message_form obj with _ | ef
        · simp [Validator.validate, hv, hm, htl, hu, hform] at h
        · rcases ef with e | u
          · simp [Validator.validate, hv, hm, htl, hu, hform] at h
          · cases u
            obtain ⟨mo, sc, h1, h2, h3⟩ :=
              validate_message_form_ok Validator.new obj hform
            simp [Validator.validate, hv, hm, htl, hu, hform, h1,
              index_obj_get mo "content" (.str sc) h2, Json.as_str] at h
            subst h
            simp [ProtocolOutput.validByRules, h3]
      · simp [Validator.validate, hv, hm, htl, hu] at h
    · simp [Validator.validate, hv, hm, htl] at h

theorem validate_toWire (r : ProtocolOutput) (h : r.validByRules = true) :
    Validator.new.validate r.toWire = some (.ok r) := by
  cases r with
  | Message m =>
    obtain ⟨⟨s⟩⟩ := m
    simp only [ProtocolOutput.validByRules, Bool.not_eq_true'] at h
    exact message_success [("content", .str s)] s rfl h
  | ToolCall tc =>
    obtain ⟨⟨t, a⟩⟩ := tc
    simp only [ProtocolOutput.validByRules, Bool.and_eq_true,
      Bool.not_eq_true'] at h
    exact tool_success [("tool", .str t), ("args", a)] t a rfl h.1 rfl h.2

/-- C7: validation composed with re-serialization is idempotent — any
result of a successful `validate`, re-serialized to its canonical wire
shape and validated again, yields the identical result. -/
theorem C7_round_trip_idempotent (value : Json) (r : ProtocolOutput)
    (h : Validator.new.validate value = some (.ok r)) :
    Validator.new.validate r.toWire = some (.ok r) :=
  validate_toWire r (validate_ok_valid value r h)

theorem C7_round_trip_idempotent_witness :
    Validator.new.validate
        ((ProtocolOutput.Message ⟨⟨"Hello, world"⟩⟩).toWire) =
      some (.ok (.Message ⟨⟨"Hello, world"⟩⟩)) :=
  C7_round_trip_idempotent
    (.obj [("message", .obj [("content", .str "Hello, world")])]) _ rfl

/-- C9 counterexample: the claim that every `ProtocolOutput` value,
however constructed, satisfies the validity rules is false — the
constructors are public, so a text message with empty content is
directly constructible and violates the rules. -/
theorem C9_direct_construction_invalid :
    ProtocolOutput.validByRules (.Message ⟨⟨""⟩⟩) = false := rfl

/-- C9 (amended): every `ProtocolOutput` produced by a successful
`Validator::validate` call satisfies the validity rules of spec
section 4: non-empty content, non-empty tool, object-typed arguments. -/
theorem C9_validate_output_valid (value : Json) (r : ProtocolOutput)
    (h : Validator.new.validate value = some (.ok r)) :
    r.validByRules = true :=
  validate_ok_valid value r h

theorem C9_validate_output_valid_witness :
    ProtocolOutput.validByRules
      (.ToolCall ⟨⟨"fs.read", .obj []⟩⟩) = true :=
  C9_validate_output_valid
    (.obj [("tool_call", .obj [("tool", .str "fs.read"), ("args", .obj [])])])
    _ rfl

theorem validate_message_form_isSome (self : Validator) (obj : JObj) :
    (self.validate_message_form obj).isSome = true := by
  unfold Validator.validate_message_form
  rcases hg : objGet obj "message" with _ | message
  · simp [hg]
  · rcases ho : message.asObject with _ | message_obj
    · simp [hg, ho]
    · rcases hc : objGet message_obj "content" with _ | cval
      · simp [hg, ho, objContains, hc]
      · rcases hs : cval.as_str with _ | content
        · simp [hg, ho, objContains, hc, hs]
        · cases he : content.isEmpty <;>
            simp [hg, ho, objContains, hc, hs, he]

theorem validate_tool_call_form_isSome (self : Validator) (obj : JObj) :
    (self.validate_tool_call_form obj).isSome = true := by
  unfold Validator.validate_tool_call_form
  rcases hg : objGet obj "tool_call" with _ | tool_call
  · simp [hg]
  · rcases ho : tool_call.asObject with _ | tc_obj
    · simp [hg, ho]
    · rcases hc : objGet tc_obj "tool" with _ | tval
      · simp [hg, ho, objContains, hc]
      · rcases hs : tval.as_str with _ | tool
        · simp [hg, ho, objContains, hc, hs]
        · cases he : tool.isEmpty
          · rcases ha : objGet tc_obj "args" with _ | aval
            · simp [hg, ho, objContains, hc, hs, he, ha]
            · cases hao : aval.is_object <;>
                simp [hg, ho, objContains, hc, hs, he, ha, hao]
          · simp [hg, ho, objContains, hc, hs, he]

/-- C10: `validate` is total on every JSON value — the panic branches of
the unguarded `Map` indexing in the success path (modelled as the `none`
result) are unreachable, because each index is evaluated only after the
corresponding presence and type facts have been established. -/
theorem C10_validate_never_panics (value : Json) :
    (Validator.new.validate value).isSome = true := by
  rcases hv : value.asObject with _ | obj
  · simp [Validator.validate, hv]
  · cases hm : objContains obj "message" <;>
      cases htl : objContains obj "tool_call"
    · simp [Validator.validate, hv, hm, htl]
    · rcases hu : firstUnknownKey Validator.new.known_fields obj with _ | key
      · rcases hform : Validator.new.validate_tool_call_form obj with _ | ef
        · exact absurd (validate_tool_call_form_isSome Validator.new obj)
            (by simp [hform])
        · rcases ef with e | u
          · simp [Validator.validate, hv, hm, htl, hu, hform]
          · cases u
            obtain ⟨tco, t, a, h1, h2, h3, h4, h5⟩ :=
              validate_tool_call_form_ok Validator.new obj hform
            simp [Validator.validate, hv, hm, htl, hu, hform, h1,
              index_obj_get tco "tool" (.str t) h2, Json.as_str]
      · simp [Validator.validate, hv, hm, htl, hu]
    · rcases hu : firstUnknownKey Validator.new.known_fields obj with _ | key
      · rcases hform : Validator.new.validate_message_form obj with _ | ef
        · exact absurd (validate_message_form_isSome Validator.new obj)
            (by simp [hform])
        · rcases ef with e | u
          · simp [Validator.validate, hv, hm, htl, hu, hform]
          · cases u
            obtain ⟨mo, sc, h1, h2, h3⟩ :=
              validate_message_form_ok Validator.new obj hform
            simp [Validator.validate, hv, hm, htl, hu, hform, h1,
              index_obj_get mo "content" (.str sc) h2, Json.as_str]
      · simp [Validator.validate, hv, hm, htl, hu]
    · simp [Validator.validate, hv, hm, htl]
